import Mathlib

/-!
Shallow embedding of the fund-onboarding agent pipeline
(confidence scoring, orchestrator state machine, tiered research cache,
message envelope) translated from the Python sources under `backend/`.
Floating-point numbers are modelled as rationals, wall-clock instants as
integers, and Python dicts as insertion-ordered association lists.
-/

/-- Python `pat in s` on character lists: `startsWithL` mirrors the
prefix test, `containsSub` scans every suffix. -/
def startsWithL : List Char → List Char → Bool
  | [], _ => true
  | _ :: _, [] => false
  | a :: as, b :: bs => a == b && startsWithL as bs

/-- Python substring containment `pat in s` over character lists. -/
def containsSub (pat : List Char) : List Char → Bool
  | [] => pat.isEmpty
  | c :: rest => startsWithL pat (c :: rest) || containsSub pat rest

/-- Python `pat in s` for strings. -/
def strIn (pat s : String) : Bool :=
  containsSub pat.data s.data

/-- Python `s.lower()`, character by character. -/
def strLower (s : String) : String :=
  String.mk (s.data.map Char.toLower)

namespace ConfidenceScoring

/-- `ConfidenceFactors` dataclass from `services/confidence_scoring.py`:
eleven named sub-scores, each defaulting to 0.0. -/
structure ConfidenceFactors where
  source_reliability : ℚ := 0
  source_diversity : ℚ := 0
  data_freshness : ℚ := 0
  pattern_match_score : ℚ := 0
  pattern_specificity : ℚ := 0
  method_agreement : ℚ := 0
  historical_accuracy : ℚ := 0
  data_completeness : ℚ := 0
  data_consistency : ℚ := 0
  domain_specificity : ℚ := 0
  contextual_coherence : ℚ := 0
  deriving DecidableEq

/-- The default weight table of `ConfidenceFactors.get_weighted_score`,
paired with the corresponding factor values; every weight key is a field
of the dataclass, so the `hasattr` guard in the source always passes. -/
def ConfidenceFactors.weightedPairs (f : ConfidenceFactors) : List (ℚ × ℚ) :=
  [(f.source_reliability, 20/100),
   (f.source_diversity, 10/100),
   (f.data_freshness, 5/100),
   (f.pattern_match_score, 15/100),
   (f.pattern_specificity, 10/100),
   (f.method_agreement, 15/100),
   (f.historical_accuracy, 10/100),
   (f.data_completeness, 10/100),
   (f.data_consistency, 10/100),
   (f.domain_specificity, 15/100),
   (f.contextual_coherence, 10/100)]

/-- `ConfidenceFactors.get_weighted_score` with the default weight table:
sum of factor*weight divided by the total weight applied (which is 1.30),
0 when the total weight is not positive. -/
def ConfidenceFactors.get_weighted_score (f : ConfidenceFactors) : ℚ :=
  let score := (f.weightedPairs.map fun p => p.1 * p.2).sum
  let total_weight := (f.weightedPairs.map fun p => p.2).sum
  if total_weight > 0 then score / total_weight else 0

/-- All eleven factor fields lie in [0,1]. -/
def FactorsInRange (f : ConfidenceFactors) : Prop :=
  (0 ≤ f.source_reliability ∧ f.source_reliability ≤ 1) ∧
  (0 ≤ f.source_diversity ∧ f.source_diversity ≤ 1) ∧
  (0 ≤ f.data_freshness ∧ f.data_freshness ≤ 1) ∧
  (0 ≤ f.pattern_match_score ∧ f.pattern_match_score ≤ 1) ∧
  (0 ≤ f.pattern_specificity ∧ f.pattern_specificity ≤ 1) ∧
  (0 ≤ f.method_agreement ∧ f.method_agreement ≤ 1) ∧
  (0 ≤ f.historical_accuracy ∧ f.historical_accuracy ≤ 1) ∧
  (0 ≤ f.data_completeness ∧ f.data_completeness ≤ 1) ∧
  (0 ≤ f.data_consistency ∧ f.data_consistency ≤ 1) ∧
  (0 ≤ f.domain_specificity ∧ f.domain_specificity ≤ 1) ∧
  (0 ≤ f.contextual_coherence ∧ f.contextual_coherence ≤ 1)

/-- The slice of `classification_data` consulted by the method bonus and
consistency penalty of `ConfidenceScorer.calculate_classification_confidence`. -/
structure ClassificationData where
  classification_method : String := ""
  asset_class : String := ""
  fund_name : String := ""
  equity_region : Option String := none
  deriving DecidableEq

/-- `ConfidenceScorer._get_method_confidence_bonus`: bonus table lookup
keyed by classification method, 0.0 for unknown methods. -/
def getMethodConfidenceBonus (cd : ClassificationData) : ℚ :=
  if cd.classification_method = "known_fund" then 1/10
  else if cd.classification_method = "morningstar" then 5/100
  else if cd.classification_method = "rule_based" then 0
  else if cd.classification_method = "research_based" then -(5/100)
  else 0

/-- `ConfidenceScorer._calculate_consistency_penalty`: 0.2 for a
name/asset-class mismatch, plus 0.1 for an equity-region mismatch. -/
def calculateConsistencyPenalty (cd : ClassificationData) : ℚ :=
  let fund_name := strLower cd.fund_name
  let namePenalty : ℚ :=
    if cd.asset_class = "Fixed Income" ∧
        (strIn "equity" fund_name || strIn "stock" fund_name || strIn "shares" fund_name) then
      2/10
    else if cd.asset_class = "Equity" ∧
        (strIn "bond" fund_name || strIn "treasury" fund_name || strIn "fixed income" fund_name) then
      2/10
    else 0
  let regionPenalty : ℚ :=
    if cd.asset_class = "Equity" then
      if cd.equity_region = some "US" ∧
          (strIn "international" fund_name || strIn "foreign" fund_name || strIn "global" fund_name) then
        1/10
      else if cd.equity_region = some "International" ∧ strIn "us " fund_name then
        1/10
      else 0
    else 0
  namePenalty + regionPenalty

/-- Final combination step of
`ConfidenceScorer.calculate_classification_confidence`: the weighted score
of the assembled factors, times (1 + method bonus) clamped above at 1,
minus the consistency penalty clamped below at 0. -/
def calculate_classification_confidence
    (factors : ConfidenceFactors) (cd : ClassificationData) : ℚ :=
  let confidence_score := factors.get_weighted_score
  let method_bonus := getMethodConfidenceBonus cd
  let withBonus := min 1 (confidence_score * (1 + method_bonus))
  max 0 (withBonus - calculateConsistencyPenalty cd)

/-- Source-type buckets of `ConfidenceScorer._assess_source_diversity`. -/
inductive SourceType
  | financial_data | regulatory | fund_company | news | general
  deriving DecidableEq, Repr

/-- Bucketing of one source string into its type, translated from the
if/elif chain of `_assess_source_diversity`. -/
def classifySource (source : String) : SourceType :=
  let s := strLower source
  if strIn "morningstar" s || strIn "yahoo" s || strIn "bloomberg" s then .financial_data
  else if strIn "sec.gov" s || strIn "regulatory" s then .regulatory
  else if strIn "vanguard" s || strIn "ishares" s || strIn "fidelity" s then .fund_company
  else if strIn "news" s || strIn "reuters" s || strIn "wsj" s then .news
  else .general

/-- `ConfidenceScorer._assess_source_diversity`: 0.0 for no sources, 0.3
for exactly one source, else unique source types / 5 plus a capped
multi-source bonus, clamped at 1. -/
def assessSourceDiversity (sources : List String) : ℚ :=
  if sources.length ≤ 1 then
    if sources.length = 0 then 0 else 3/10
  else
    let source_types := (sources.map classifySource).dedup
    let diversity_score : ℚ := (source_types.length : ℚ) / 5
    let total_sources_bonus : ℚ := min (2/10) (((sources.length : ℚ) - 1) * (5/100))
    min 1 (diversity_score + total_sources_bonus)

/-- The formula the claim states for source diversity: 0 for zero sources,
otherwise min(1, unique_categories/5 + min(0.2, 0.05*(n-1))) — written
from the claim, to be compared with the source translation. -/
def sourceDiversityClaim (sources : List String) : ℚ :=
  if sources.length = 0 then 0
  else
    let source_types := (sources.map classifySource).dedup
    min 1 ((source_types.length : ℚ) / 5 +
      min (2/10) (((sources.length : ℚ) - 1) * (5/100)))

/-- The amended description: 0 for zero sources, 0.3 for exactly one
source, and the claim's formula for two or more sources. -/
def sourceDiversityAmended (sources : List String) : ℚ :=
  if sources.length = 0 then 0
  else if sources.length = 1 then 3/10
  else
    let source_types := (sources.map classifySource).dedup
    min 1 ((source_types.length : ℚ) / 5 +
      min (2/10) (((sources.length : ℚ) - 1) * (5/100)))

end ConfidenceScoring

namespace Models

/-- `FundCategorization` from `models/unified_models.py`, restricted to the
fields read or written by its methods and by the orchestrator handlers. -/
structure FundCategorization where
  ticker : String := ""
  fund_name : String := ""
  asset_class : String := ""
  asset_class_confidence : ℚ := 0
  equity_region : Option String := none
  equity_style : Option String := none
  equity_size : Option String := none
  fixed_income_type : Option String := none
  fixed_income_duration : Option String := none
  classification_method : String := ""
  reasoning : String := ""
  manual_override : Bool := false
  override_reason : Option String := none
  override_by : Option String := none
  override_timestamp : Option ℤ := none
  deriving DecidableEq, Repr

/-- One `key=value` keyword argument of `apply_override`: the
`hasattr`/`setattr` loop accepts any declared attribute of the model
(values are modelled type-correctly per field), so every modelled field
of `FundCategorization` can be targeted, not only the five sub-category
fields. -/
inductive FieldAssignment
  | ticker (v : String)
  | fund_name (v : String)
  | asset_class (v : String)
  | asset_class_confidence (v : ℚ)
  | equity_region (v : Option String)
  | equity_style (v : Option String)
  | equity_size (v : Option String)
  | fixed_income_type (v : Option String)
  | fixed_income_duration (v : Option String)
  | classification_method (v : String)
  | reasoning (v : String)
  | manual_override (v : Bool)
  | override_reason (v : Option String)
  | override_by (v : Option String)
  | override_timestamp (v : Option ℤ)
  deriving DecidableEq, Repr

/-- One `setattr(self, key, value)` step of the `apply_override` loop
(`hasattr` holds for every modelled field, so each assignment lands). -/
def setattrStep (f : FundCategorization) : FieldAssignment → FundCategorization
  | .ticker v => { f with ticker := v }
  | .fund_name v => { f with fund_name := v }
  | .asset_class v => { f with asset_class := v }
  | .asset_class_confidence v => { f with asset_class_confidence := v }
  | .equity_region v => { f with equity_region := v }
  | .equity_style v => { f with equity_style := v }
  | .equity_size v => { f with equity_size := v }
  | .fixed_income_type v => { f with fixed_income_type := v }
  | .fixed_income_duration v => { f with fixed_income_duration := v }
  | .classification_method v => { f with classification_method := v }
  | .reasoning v => { f with reasoning := v }
  | .manual_override v => { f with manual_override := v }
  | .override_reason v => { f with override_reason := v }
  | .override_by v => { f with override_by := v }
  | .override_timestamp v => { f with override_timestamp := v }

/-- Whether a keyword argument targets one of the five sub-category
fields the override flow is meant to supply. -/
def FieldAssignment.targetsSubCategory : FieldAssignment → Bool
  | .equity_region _ | .equity_style _ | .equity_size _
  | .fixed_income_type _ | .fixed_income_duration _ => true
  | _ => false

/-- `FundCategorization.apply_override`: records the override metadata,
replaces the asset class, applies the `**sub_categories` keyword
arguments in order via `setattr` (any modelled field may be targeted),
then sets the confidence to max(0.95, the then-current confidence).
`now` is the `datetime.utcnow()` instant. -/
def FundCategorization.apply_override (f : FundCategorization)
    (new_asset_class reason override_by : String) (now : ℤ)
    (sub_categories : List FieldAssignment) :
    FundCategorization :=
  let f1 := { f with
    manual_override := true
    override_reason := some reason
    override_by := some override_by
    override_timestamp := some now
    asset_class := new_asset_class }
  let f2 := sub_categories.foldl setattrStep f1
  { f2 with asset_class_confidence := max (95/100) f2.asset_class_confidence }

end Models

/-- Lookup in a Python dict modelled as an insertion-ordered association
list with unique keys. -/
def assocGet [DecidableEq κ] : List (κ × α) → κ → Option α
  | [], _ => none
  | (k0, v0) :: rest, k => if k0 = k then some v0 else assocGet rest k

/-- Python dict assignment `m[k] = v`: replaces in place, else appends. -/
def assocSet [DecidableEq κ] : List (κ × α) → κ → α → List (κ × α)
  | [], k, v => [(k, v)]
  | (k0, v0) :: rest, k, v => if k0 = k then (k, v) :: rest else (k0, v0) :: assocSet rest k v

/-- Python dict deletion `del m[k]` (keys are unique). -/
def assocRemove [DecidableEq κ] : List (κ × α) → κ → List (κ × α)
  | [], _ => []
  | (k0, v0) :: rest, k => if k0 = k then rest else (k0, v0) :: assocRemove rest k

/-- Python `s.upper()`, character by character. -/
def strUpper (s : String) : String :=
  String.mk (s.data.map Char.toUpper)

/-- Python truthiness of an optional string: `None` and the empty string
are falsy. -/
def optFalsy : Option String → Bool
  | none => true
  | some s => s == ""

namespace Agents

/-- `MessageType` enum from `agents/base_agent.py`. -/
inductive MessageType
  | status_update | data_processed | request_action
  | validation_result | chat_response | error
  deriving DecidableEq, Repr

/-- `AgentType` enum from `agents/base_agent.py`. -/
inductive AgentType
  | intake | research | extraction | categorization | validation | chat_orchestrator
  deriving DecidableEq, Repr

/-- The string value of an `AgentType` member (it is a str-enum, so
f-string interpolation renders the value). -/
def agentTypeValue : AgentType → String
  | .intake => "intake"
  | .research => "research"
  | .extraction => "extraction"
  | .categorization => "categorization"
  | .validation => "validation"
  | .chat_orchestrator => "chat_orchestrator"

/-- Interpolation of an optional sender (`None` renders as "None"). -/
def fmtSender : Option AgentType → String
  | none => "None"
  | some a => agentTypeValue a

/-- `ConversationStage` enum from `agents/chat_orchestrator.py`. -/
inductive ConversationStage
  | greeting | file_uploaded | portfolio_processed
  | categorization_started | deep_research_started | deep_research_completed
  | classification_started | classification_completed | user_review_needed
  | categorization_review | categorization_complete
  | research_started | research_completed | extraction_started | extraction_completed
  | analysis_ready | recommendations | complete
  deriving DecidableEq, Repr

/-- One question dict produced by
`ClassificationAgent._generate_questions` (type, text, option values). -/
structure QuestionSpec where
  qtype : String
  question : String
  options : List String
  deriving DecidableEq, Repr

/-- `ClassificationAgent._generate_questions`, translated from the source:
an asset-class question when confidence < 0.7, then the missing
sub-category questions for the Equity or Fixed Income branches. -/
def generate_questions (c : Models.FundCategorization) : List QuestionSpec :=
  let assetClassQ : List QuestionSpec :=
    if c.asset_class_confidence < 7/10 then
      [{ qtype := "asset_class",
         question := "How should " ++ c.ticker ++ " (" ++ c.fund_name ++ ") be classified?",
         options := ["Equity", "Fixed Income", "Cash", "Alternatives"] }]
    else []
  let subQ : List QuestionSpec :=
    if c.asset_class = "Equity" then
      (if optFalsy c.equity_region then
        [{ qtype := "equity_region",
           question := "What geographic region does " ++ c.ticker ++ " focus on?",
           options := ["US", "International", "Emerging", "Global"] }] else []) ++
      (if optFalsy c.equity_style then
        [{ qtype := "equity_style",
           question := "What investment style does " ++ c.ticker ++ " follow?",
           options := ["Value", "Growth", "Blend"] }] else []) ++
      (if optFalsy c.equity_size then
        [{ qtype := "equity_size",
           question := "What market cap focus does " ++ c.ticker ++ " have?",
           options := ["Large", "Mid", "Small", "Micro"] }] else [])
    else if c.asset_class = "Fixed Income" then
      (if optFalsy c.fixed_income_type then
        [{ qtype := "fixed_income_type",
           question := "What type of bonds does " ++ c.ticker ++ " hold?",
           options := ["Government", "Corporate", "Municipal", "High Yield"] }] else []) ++
      (if optFalsy c.fixed_income_duration then
        [{ qtype := "fixed_income_duration",
           question := "What duration focus does " ++ c.ticker ++ " have?",
           options := ["Short", "Intermediate", "Long"] }] else [])
    else []
  assetClassQ ++ subQ

/-- `CategorizationSession` from `models/unified_models.py`, restricted to
the fields the orchestrator handlers use. -/
structure CategorizationSession where
  session_id : String := ""
  fund_categorizations : List (String × Models.FundCategorization) := []
  current_stage : String := "uploaded"
  funds_needing_input : List String := []
  current_fund_index : ℕ := 0
  categorized_funds : ℕ := 0
  high_confidence_funds : ℕ := 0
  updated_at : ℤ := 0
  deriving DecidableEq, Repr

/-- `CategorizationSession.get_fund_categorization`. -/
def CategorizationSession.get_fund_categorization
    (s : CategorizationSession) (ticker : String) : Option Models.FundCategorization :=
  assocGet s.fund_categorizations (strUpper ticker)

/-- `CategorizationSession.add_fund_categorization`. -/
def CategorizationSession.add_fund_categorization
    (s : CategorizationSession) (now : ℤ) (c : Models.FundCategorization) :
    CategorizationSession :=
  let m := assocSet s.fund_categorizations (strUpper c.ticker) c
  { s with
    fund_categorizations := m
    categorized_funds := m.length
    high_confidence_funds := (m.filter fun p => decide (8/10 ≤ p.2.asset_class_confidence)).length
    updated_at := now }

/-- `CategorizationSession.get_next_fund_needing_input`: the ticker at the
current index when the pointer is inside the list, else None. -/
def CategorizationSession.get_next_fund_needing_input
    (s : CategorizationSession) : Option String :=
  if s.current_fund_index < s.funds_needing_input.length then
    s.funds_needing_input.get? s.current_fund_index
  else none

/-- `CategorizationSession.mark_current_fund_complete`. -/
def CategorizationSession.mark_current_fund_complete
    (s : CategorizationSession) (now : ℤ) : CategorizationSession :=
  { s with current_fund_index := s.current_fund_index + 1, updated_at := now }

/-- Orchestrator state touched by the embedded handlers. -/
structure OrchestratorState where
  session_id : String := ""
  conversation_stage : ConversationStage := .greeting
  categorization_session : Option CategorizationSession := none
  deriving DecidableEq, Repr

/-- Data payload of a message created by the orchestrator; free-text and
context fields not used to identify messages are elided. -/
structure OutData where
  typeTag : Option String := none
  message : String := ""
  message_type : Option String := none
  errText : Option String := none
  ticker : Option String := none
  question : Option QuestionSpec := none
  errPayload : Option (List (String × String)) := none
  deriving DecidableEq, Repr

/-- A message yielded by the orchestrator. -/
structure OutMsg where
  mtype : MessageType
  sender : AgentType
  recipient : Option AgentType
  data : OutData
  session_id : String
  deriving DecidableEq, Repr

/-- `BaseAgent.create_message` as invoked from the orchestrator. -/
def create_message (sid : String) (mt : MessageType) (d : OutData) : OutMsg :=
  { mtype := mt, sender := .chat_orchestrator, recipient := none, data := d, session_id := sid }

/-- `ChatOrchestrator._create_categorization_results_message`: a chat
response whose data carries type "categorization_complete". -/
def categorization_results_message (sid : String) : OutMsg :=
  create_message sid .chat_response
    { typeTag := some "categorization_complete"
      message := "Categorization Results"
      message_type := some "success" }

/-- `BaseAgent.emit_error` as invoked from the orchestrator. -/
def orchestrator_error_message (sid : String) (err : String) : OutMsg :=
  { mtype := .error, sender := .chat_orchestrator, recipient := none,
    data := { errText := some err }, session_id := sid }

/-- The question chat message built from `CategoryQuestion.to_chat_message`
(data type "categorization_question"). -/
def question_message (sid : String) (c : Models.FundCategorization)
    (q : QuestionSpec) : OutMsg :=
  create_message sid .chat_response
    { typeTag := some "categorization_question"
      message := q.question
      ticker := some c.ticker
      question := some q }

/-- Fuel bound for the `_send_next_categorization_question` recursion: the
pointer advances at every recursive call, so remaining list length plus
one suffices. -/
def send_next_fuel (st : OrchestratorState) : ℕ :=
  match st.categorization_session with
  | none => 1
  | some s => (s.funds_needing_input.length - s.current_fund_index) + 1

/-- `ChatOrchestrator._send_next_categorization_question`, fuelled: when
the pointer is past the end of funds_needing_input it yields the
completion chat message and the final results message; when the current
fund has no questions it advances the pointer and recurses; otherwise it
yields the first question. -/
def send_next_question_aux (now : ℤ) :
    ℕ → OrchestratorState → OrchestratorState × List OutMsg
  | 0, st => (st, [])
  | fuel + 1, st =>
    match st.categorization_session with
    | none => (st, [orchestrator_error_message st.session_id "No categorization session available"])
    | some s =>
      match s.get_next_fund_needing_input with
      | none =>
        (st,
         [create_message st.session_id .chat_response
            { message := "That is all the input I needed! Your portfolio categorization is now complete."
              message_type := some "success" },
          categorization_results_message st.session_id])
      | some current_ticker =>
        match s.get_fund_categorization current_ticker with
        | none =>
          (st, [orchestrator_error_message st.session_id
            ("No categorization found for " ++ current_ticker)])
        | some fc =>
          match generate_questions fc with
          | [] =>
            send_next_question_aux now fuel
              { st with categorization_session := some (s.mark_current_fund_complete now) }
          | q :: _ => (st, [question_message st.session_id fc q])

/-- `ChatOrchestrator._send_next_categorization_question`. -/
def send_next_categorization_question (now : ℤ) (st : OrchestratorState) :
    OrchestratorState × List OutMsg :=
  send_next_question_aux now (send_next_fuel st) st

/-- Result of an orchestrator handler: final state, messages yielded in
order, and the conversation-stage assignments executed, in order. -/
structure HandlerResult where
  state : OrchestratorState
  emitted : List OutMsg
  stageTrace : List ConversationStage
  deriving DecidableEq, Repr

/-- Summary dict of the classification agent's `categorization_data`; the
orchestrator reads it with `.get` defaults, so the two fields it consumes
are optional here. -/
structure ClassSummary where
  requires_user_input : Option ℕ := none
  average_confidence : Option ℚ := none
  total_funds : ℕ := 0
  deriving DecidableEq, Repr

/-- One entry of `interaction_needed` (fields the orchestrator reads). -/
structure InteractionItem where
  ticker : String := ""
  fund_name : String := ""
  deriving DecidableEq, Repr

/-- The `categorization_data` payload of Classification's completion
message. -/
structure CategorizationData where
  classifications : List Models.FundCategorization := []
  summary : ClassSummary := {}
  interaction_needed : List InteractionItem := []
  deriving DecidableEq, Repr

/-- `ChatOrchestrator._start_user_review_process`: sets the review stage;
with no interactions needed it yields the results message, else it points
the session at the funds needing input and sends the first question. -/
def start_user_review_process (now : ℤ) (st : OrchestratorState)
    (cd : CategorizationData) : HandlerResult :=
  let st1 := { st with conversation_stage := .categorization_review }
  match cd.interaction_needed with
  | [] => ⟨st1, [categorization_results_message st1.session_id], [.categorization_review]⟩
  | first :: _ =>
    let st2 := match st1.categorization_session with
      | none => st1
      | some s =>
        { st1 with categorization_session := some { s with
            funds_needing_input := cd.interaction_needed.map fun i => i.ticker
            current_fund_index := 0 } }
    let introMsg := create_message st2.session_id .chat_response
      { message := "Lets start with " ++ first.ticker ++ " (" ++ first.fund_name ++
          "). I need your help with the following:"
        message_type := some "info" }
    let r := send_next_categorization_question now st2
    ⟨r.1, introMsg :: r.2, [.categorization_review]⟩

/-- `ChatOrchestrator._handle_classification_completion`: records the
classifications, then branches on requires_user_input > 0 or average
confidence < 0.8 into the review flow, else completes and yields the
final results message. -/
def handle_classification_completion (now : ℤ) (st : OrchestratorState)
    (cd : CategorizationData) : HandlerResult :=
  let st1 := { st with conversation_stage := .classification_completed }
  let st2 := match st1.categorization_session with
    | none => st1
    | some s =>
      { st1 with categorization_session := some (cd.classifications.foldl
          (fun acc c => acc.add_fund_categorization now c) s) }
  let needs_review := cd.summary.requires_user_input.getD 0
  let avg_confidence := cd.summary.average_confidence.getD 0
  if needs_review > 0 ∨ avg_confidence < 8/10 then
    let st3 := { st2 with conversation_stage := .user_review_needed }
    let infoMsg := create_message st3.session_id .chat_response
      { message := "I have analyzed your funds! I found funds that need your input for accurate categorization."
        message_type := some "info" }
    let r := start_user_review_process now st3 cd
    ⟨r.state, infoMsg :: r.emitted,
      [.classification_completed, .user_review_needed] ++ r.stageTrace⟩
  else
    let st3 := { st2 with conversation_stage := .categorization_complete }
    ⟨st3,
     [create_message st3.session_id .chat_response
        { message := "Excellent! I have successfully categorized all funds with high confidence. Here are your results:"
          message_type := some "success" },
      categorization_results_message st3.session_id],
     [.classification_completed, .categorization_complete]⟩

/-- An inbound message as seen by `ChatOrchestrator.process`. -/
structure InMsg where
  mtype : MessageType
  sender : Option AgentType := none
  data : List (String × String) := []
  session_id : String := ""
  deriving DecidableEq, Repr

/-- `ChatOrchestrator._handle_error`: formats the error text and yields a
single chat response of message_type "error" carrying the original data;
it touches no session state. -/
def handle_error (st : OrchestratorState) (m : InMsg) :
    OrchestratorState × List OutMsg :=
  let error_msg := (assocGet m.data "error").getD "An error occurred" ++
    " in " ++ fmtSender m.sender ++ " agent."
  (st,
   [create_message st.session_id .chat_response
      { message := error_msg
        message_type := some "error"
        errPayload := some m.data }])

end Agents

namespace BaseAgent

open Agents (MessageType AgentType)

/-- `AgentMessage` dataclass from `agents/base_agent.py` (payload values
modelled as strings). -/
structure AgentMessage where
  mtype : MessageType
  sender : Option AgentType
  recipient : Option AgentType
  data : List (String × String)
  session_id : String
  timestamp : Option ℤ := none
  message_id : Option String := none
  deriving DecidableEq, Repr

/-- `AgentMessage.__post_init__`: fills a missing timestamp and a missing
message id; it never touches session_id. -/
def post_init (now : ℤ) (uuid : String) (m : AgentMessage) : AgentMessage :=
  let m1 := match m.timestamp with
    | none => { m with timestamp := some now }
    | some _ => m
  match m1.message_id with
  | none => { m1 with message_id := some uuid }
  | some _ => m1

/-- The identity of a live agent: `(agent_type, session_id)` as set by the
`BaseAgent` constructor. -/
structure AgentHandle where
  agent_type : AgentType
  session_id : String
  deriving DecidableEq, Repr

/-- `BaseAgent.create_message`: the sender is the agent and the session id
is copied from the agent. -/
def create_message (a : AgentHandle) (mt : MessageType)
    (recipient : Option AgentType) (d : List (String × String)) : AgentMessage :=
  { mtype := mt, sender := some a.agent_type, recipient := recipient,
    data := d, session_id := a.session_id }

/-- One hex digit (lowercase). -/
def hexDigit (n : ℕ) : Char :=
  if n < 10 then Char.ofNat (48 + n) else Char.ofNat (87 + n)

/-- Fixed-width lowercase hex rendering. -/
def hexPad (len n : ℕ) : List Char :=
  (List.range len).map fun i => hexDigit (n / 16 ^ (len - 1 - i) % 16)

/-- Modelled from the Python standard library (external to this repo):
`str(uuid.uuid4())` renders in the canonical 8-4-4-4-12 hex form, here as
a function of the 128-bit random draw. -/
def uuid4_string (n : ℕ) : String :=
  String.mk (hexPad 8 (n / 16 ^ 24) ++ ['-'] ++ hexPad 4 (n / 16 ^ 20) ++ ['-'] ++
    hexPad 4 (n / 16 ^ 16) ++ ['-'] ++ hexPad 4 (n / 16 ^ 12) ++ ['-'] ++ hexPad 12 n)

/-- The cross-request state of `api/unified_router.py`: the session ids
holding live orchestrators, and every `AgentMessage` constructed so far. -/
structure Pipeline where
  active_sessions : List String := []
  messages : List AgentMessage := []
  deriving DecidableEq, Repr

/-- The pipeline before any request. -/
def initPipeline : Pipeline := {}

/-- Message-construction events of the pipeline, from the router and agent
sources: session creation draws a fresh uuid4 id; router endpoints build
messages only for ids of live sessions; agents build messages through
`create_message` with their own session id (agents are created with the
session id of a live session). Existing messages are never modified. -/
inductive PStep : Pipeline → Pipeline → Prop
  | create_session (p : Pipeline) (n : ℕ) :
      PStep p { p with active_sessions := uuid4_string n :: p.active_sessions }
  | router_message (p : Pipeline) (sid : String) (now : ℤ) (k : ℕ)
      (mt : MessageType) (d : List (String × String))
      (h : sid ∈ p.active_sessions) :
      PStep p { p with messages := (post_init now (uuid4_string k)
          { mtype := mt, sender := none, recipient := none,
            data := d, session_id := sid } :: p.messages) }
  | agent_message (p : Pipeline) (a : AgentHandle) (now : ℤ) (k : ℕ)
      (mt : MessageType) (r : Option AgentType) (d : List (String × String))
      (h : a.session_id ∈ p.active_sessions) :
      PStep p { p with messages := (post_init now (uuid4_string k)
          (create_message a mt r d) :: p.messages) }

/-- The session-id invariant: every live session id and every constructed
message's session_id is a non-empty string. -/
def PipelineInv (p : Pipeline) : Prop :=
  (∀ sid ∈ p.active_sessions, sid ≠ "") ∧ (∀ m ∈ p.messages, m.session_id ≠ "")

end BaseAgent

namespace Cache

/-- `CacheEntry` dataclass from `services/research_cache.py` (the opaque
pickled value is modelled as a natural number). -/
structure CacheEntry where
  key : String
  value : ℕ
  created_at : ℤ
  expires_at : ℤ
  access_count : ℕ
  last_accessed : ℤ
  tags : List String
  size_bytes : ℕ
  deriving DecidableEq, Repr

/-- `CacheEntry.is_expired`: strictly past the expiry instant. -/
def CacheEntry.is_expired (now : ℤ) (e : CacheEntry) : Bool :=
  now > e.expires_at

/-- `ResearchDataCache` state: the in-memory dict with its tracked size,
the persistent sqlite table keyed by `key`, and the statistics counters. -/
structure CacheState where
  max_memory_size : ℕ
  memory_cache : List (String × CacheEntry) := []
  memory_size : ℤ := 0
  disk : List (String × CacheEntry) := []
  hits : ℕ := 0
  misses : ℕ := 0
  memory_hits : ℕ := 0
  disk_hits : ℕ := 0
  evictions : ℕ := 0
  cleanups : ℕ := 0
  deriving DecidableEq, Repr

/-- `ResearchDataCache._remove_from_memory`. -/
def remove_from_memory (st : CacheState) (key : String) : CacheState :=
  match assocGet st.memory_cache key with
  | none => st
  | some e =>
    { st with
      memory_size := st.memory_size - e.size_bytes
      memory_cache := assocRemove st.memory_cache key }

/-- The LRU selection of `_evict_from_memory`: Python `min` over the keys
by last_accessed keeps the earliest of ties in iteration order. -/
def lruKey : List (String × CacheEntry) → Option String
  | [] => none
  | p :: rest =>
    some (rest.foldl
      (fun best q => if q.2.last_accessed < best.2.last_accessed then q else best) p).1

/-- `ResearchDataCache._evict_from_memory`. -/
def evict_from_memory (st : CacheState) : CacheState :=
  match lruKey st.memory_cache with
  | none => st
  | some k =>
    let st1 := remove_from_memory st k
    { st1 with evictions := st1.evictions + 1 }

/-- The eviction while-loop of `_add_to_memory`, fuelled by the number of
memory entries (each pass removes exactly one entry). -/
def evictLoop : ℕ → ℕ → CacheState → CacheState
  | 0, _, st => st
  | fuel + 1, size_bytes, st =>
    if st.memory_size + size_bytes > st.max_memory_size ∧ 0 < st.memory_cache.length then
      evictLoop fuel size_bytes (evict_from_memory st)
    else st

/-- `ResearchDataCache._add_to_memory`: evict until the entry fits, then
store it; `last_accessed` is absent from the disk-hit row dict, in which
case `datetime.now()` is used. -/
def add_to_memory (now : ℤ) (key : String) (value : ℕ)
    (created_at expires_at : ℤ) (access_count : ℕ) (last_accessed : Option ℤ)
    (tags : List String) (size_bytes : ℕ) (st : CacheState) : CacheState :=
  let st1 := evictLoop st.memory_cache.length size_bytes st
  let entry : CacheEntry :=
    { key := key, value := value, created_at := created_at, expires_at := expires_at,
      access_count := access_count, last_accessed := last_accessed.getD now,
      tags := tags, size_bytes := size_bytes }
  { st1 with
    memory_cache := assocSet st1.memory_cache key entry
    memory_size := st1.memory_size + size_bytes }

/-- The disk branch of `ResearchDataCache.get`: the select requires
`expires_at > now`; a hit bumps the row's access stats and promotes a
copy to memory once the incremented count reaches 3 (the promoted entry
carries the pre-increment count of the selected row, whose dict lacks
`last_accessed`). -/
def getDisk (now : ℤ) (key : String) (st : CacheState) : Option ℕ × CacheState :=
  match assocGet st.disk key with
  | some row =>
    if row.expires_at > now then
      let st1 := { st with disk := (assocSet st.disk key
        { row with access_count := row.access_count + 1, last_accessed := now }) }
      let st2 :=
        if row.access_count + 1 ≥ 3 then
          add_to_memory now key row.value row.created_at row.expires_at
            row.access_count none row.tags row.size_bytes st1
        else st1
      (some row.value,
       { st2 with hits := st2.hits + 1, disk_hits := st2.disk_hits + 1 })
    else (none, { st with misses := st.misses + 1 })
  | none => (none, { st with misses := st.misses + 1 })

/-- `ResearchDataCache.get`: memory first (bumping access metadata on an
unexpired hit, discarding an expired resident entry), then the
persistent store. -/
def get (now : ℤ) (key : String) (st : CacheState) : Option ℕ × CacheState :=
  match assocGet st.memory_cache key with
  | some entry =>
    if ¬ entry.is_expired now then
      (some entry.value,
       { st with
         memory_cache := assocSet st.memory_cache key
           { entry with access_count := entry.access_count + 1, last_accessed := now }
         hits := st.hits + 1
         memory_hits := st.memory_hits + 1 })
    else getDisk now key (remove_from_memory st key)
  | none => getDisk now key st

/-- `ResearchDataCache._cleanup_expired`: drops expired memory entries,
deletes disk rows with `expires_at ≤ now`, and counts a cleanup when
anything was removed. -/
def cleanup_expired (now : ℤ) (st : CacheState) : CacheState :=
  let expired_keys := (st.memory_cache.filter fun p => p.2.is_expired now).map fun p => p.1
  let st1 := expired_keys.foldl remove_from_memory st
  let deleted_count := (st1.disk.filter fun p => decide (p.2.expires_at ≤ now)).length
  let st2 := { st1 with disk := st1.disk.filter fun p => ¬ decide (p.2.expires_at ≤ now) }
  if 0 < deleted_count ∨ expired_keys ≠ [] then
    { st2 with cleanups := st2.cleanups + 1 }
  else st2

/-- `ResearchDataCache.set`: write-through to the persistent store, mirror
into memory when the serialized size is at most a tenth of the memory
budget, then run the cleanup sweep when the count of in-memory entries is
a multiple of 100 (the returned flag records whether the sweep ran). -/
def set (now : ℤ) (key : String) (value : ℕ) (size_bytes : ℕ) (ttl : ℤ)
    (tags : List String) (st : CacheState) : CacheState × Bool :=
  let expires_at := now + ttl
  let st1 := { st with disk := (assocSet st.disk key
    { key := key, value := value, created_at := now, expires_at := expires_at,
      access_count := 1, last_accessed := now, tags := tags, size_bytes := size_bytes }) }
  let st2 :=
    if size_bytes ≤ st.max_memory_size / 10 then
      add_to_memory now key value now expires_at 1 (some now) tags size_bytes st1
    else st1
  if st2.memory_cache.length % 100 = 0 then
    (cleanup_expired now st2, true)
  else (st2, false)

/-- A sequence of writes: each triple is (value, size, ttl); keys given
alongside. Returns the final state and the per-write cleanup flags. -/
def runSets (now0 : ℤ) (writes : List (String × ℕ × ℕ)) (ttl : ℤ)
    (st : CacheState) : CacheState × List Bool :=
  match writes with
  | [] => (st, [])
  | (k, v, sz) :: rest =>
    let r := set now0 k v sz ttl [] st
    let r2 := runSets (now0 + 1) rest ttl r.1
    (r2.1, r.2 :: r2.2)

/-- The eviction discipline as the spec words it: while adding the new
entry would exceed the memory budget and resident entries remain, evict
the entry with the oldest last_accessed (`evict_from_memory`); stop as
soon as there is room (or memory is empty). Written from the spec
sentence, to be compared with the fuelled while-loop of the source. -/
inductive EvictsUntilFits (size_bytes : ℕ) : CacheState → CacheState → Prop
  | fits (st : CacheState) :
      (st.memory_size + (size_bytes : ℤ) ≤ (st.max_memory_size : ℤ) ∨
        st.memory_cache = []) →
      EvictsUntilFits size_bytes st st
  | evict (st st2 : CacheState) :
      st.memory_size + (size_bytes : ℤ) > (st.max_memory_size : ℤ) →
      st.memory_cache ≠ [] →
      EvictsUntilFits size_bytes (evict_from_memory st) st2 →
      EvictsUntilFits size_bytes st st2

end Cache

namespace ConfidenceScoring

theorem get_weighted_score_closed_form (f : ConfidenceFactors) :
    f.get_weighted_score =
      (f.source_reliability * (20/100) + f.source_diversity * (10/100) +
       f.data_freshness * (5/100) + f.pattern_match_score * (15/100) +
       f.pattern_specificity * (10/100) + f.method_agreement * (15/100) +
       f.historical_accuracy * (10/100) + f.data_completeness * (10/100) +
       f.data_consistency * (10/100) + f.domain_specificity * (15/100) +
       f.contextual_coherence * (10/100)) / (130/100) := by
  simp only [ConfidenceFactors.get_weighted_score, ConfidenceFactors.weightedPairs,
    List.map_cons, List.map_nil, List.sum_cons, List.sum_nil]
  norm_num
  ring_nf

theorem method_bonus_bounds (cd : ClassificationData) :
    -(5/100) ≤ getMethodConfidenceBonus cd ∧ getMethodConfidenceBonus cd ≤ 1/10 := by
  unfold getMethodConfidenceBonus
  split_ifs <;> norm_num

theorem consistency_penalty_nonneg (cd : ClassificationData) :
    0 ≤ calculateConsistencyPenalty cd := by
  unfold calculateConsistencyPenalty
  dsimp only
  split_ifs <;> norm_num

/-- C1: for factor vectors with all eleven fields in [0,1], the default
weighted score lies in [0,1], and the final classification confidence
(weighted sum times (1 + method bonus), clamped at 1, minus the
consistency penalty, clamped at 0) lies in [0,1] for every
classification-data input. -/
theorem weighted_and_final_confidence_in_unit_interval
    (f : ConfidenceFactors) (cd : ClassificationData) (h : FactorsInRange f) :
    (0 ≤ f.get_weighted_score ∧ f.get_weighted_score ≤ 1) ∧
    (0 ≤ calculate_classification_confidence f cd ∧
      calculate_classification_confidence f cd ≤ 1) := by
  obtain ⟨⟨h1a, h1b⟩, ⟨h2a, h2b⟩, ⟨h3a, h3b⟩, ⟨h4a, h4b⟩, ⟨h5a, h5b⟩, ⟨h6a, h6b⟩,
    ⟨h7a, h7b⟩, ⟨h8a, h8b⟩, ⟨h9a, h9b⟩, ⟨h10a, h10b⟩, ⟨h11a, h11b⟩⟩ := h
  have hg := get_weighted_score_closed_form f
  have hs : 0 ≤ f.get_weighted_score ∧ f.get_weighted_score ≤ 1 := by
    rw [hg]
    constructor
    · apply div_nonneg _ (by norm_num)
      linarith
    · rw [div_le_one (by norm_num)]
      linarith
  refine ⟨hs, ?_, ?_⟩
  · unfold calculate_classification_confidence
    exact le_max_left _ _
  · have hp := consistency_penalty_nonneg cd
    have hb := method_bonus_bounds cd
    unfold calculate_classification_confidence
    apply max_le (by norm_num)
    have : min 1 (f.get_weighted_score * (1 + getMethodConfidenceBonus cd)) ≤ 1 :=
      min_le_left _ _
    linarith

/-- Witness for C1 at the all-zero and all-one factor vectors. -/
theorem weighted_and_final_confidence_in_unit_interval_witness :
    (FactorsInRange {} ∧
      (0 ≤ ConfidenceFactors.get_weighted_score {} ∧
        ConfidenceFactors.get_weighted_score {} ≤ 1) ∧
      (0 ≤ calculate_classification_confidence {} {} ∧
        calculate_classification_confidence {} {} ≤ 1)) ∧
    (FactorsInRange
        { source_reliability := 1, source_diversity := 1, data_freshness := 1,
          pattern_match_score := 1, pattern_specificity := 1, method_agreement := 1,
          historical_accuracy := 1, data_completeness := 1, data_consistency := 1,
          domain_specificity := 1, contextual_coherence := 1 } ∧
      (0 ≤ ConfidenceFactors.get_weighted_score
          { source_reliability := 1, source_diversity := 1, data_freshness := 1,
            pattern_match_score := 1, pattern_specificity := 1, method_agreement := 1,
            historical_accuracy := 1, data_completeness := 1, data_consistency := 1,
            domain_specificity := 1, contextual_coherence := 1 } ∧
        ConfidenceFactors.get_weighted_score
          { source_reliability := 1, source_diversity := 1, data_freshness := 1,
            pattern_match_score := 1, pattern_specificity := 1, method_agreement := 1,
            historical_accuracy := 1, data_completeness := 1, data_consistency := 1,
            domain_specificity := 1, contextual_coherence := 1 } ≤ 1) ∧
      (0 ≤ calculate_classification_confidence
          { source_reliability := 1, source_diversity := 1, data_freshness := 1,
            pattern_match_score := 1, pattern_specificity := 1, method_agreement := 1,
            historical_accuracy := 1, data_completeness := 1, data_consistency := 1,
            domain_specificity := 1, contextual_coherence := 1 } {} ∧
        calculate_classification_confidence
          { source_reliability := 1, source_diversity := 1, data_freshness := 1,
            pattern_match_score := 1, pattern_specificity := 1, method_agreement := 1,
            historical_accuracy := 1, data_completeness := 1, data_consistency := 1,
            domain_specificity := 1, contextual_coherence := 1 } {} ≤ 1)) :=
  ⟨⟨by norm_num [FactorsInRange],
    weighted_and_final_confidence_in_unit_interval {} {} (by norm_num [FactorsInRange])⟩,
   ⟨by norm_num [FactorsInRange],
    weighted_and_final_confidence_in_unit_interval _ {} (by norm_num [FactorsInRange])⟩⟩

/-- C7 counterexample: for the single source "morningstar.com" the code
returns 0.3 while the claim's formula (unique categories / 5 plus the
capped multi-source bonus) gives 0.2. -/
theorem source_diversity_single_source_counterexample :
    assessSourceDiversity ["morningstar.com"] = 3/10 ∧
    sourceDiversityClaim ["morningstar.com"] = 1/5 ∧
    assessSourceDiversity ["morningstar.com"] ≠
      sourceDiversityClaim ["morningstar.com"] := by
  have h1 : assessSourceDiversity ["morningstar.com"] = 3/10 := by
    norm_num [assessSourceDiversity]
  have h2 : sourceDiversityClaim ["morningstar.com"] = 1/5 := by
    norm_num [sourceDiversityClaim]
  refine ⟨h1, h2, ?_⟩
  rw [h1, h2]
  norm_num

/-- C7 amended: the source-diversity factor is 0 for zero sources, 0.3 for
exactly one source, and min(1, unique_categories/5 + min(0.2,
0.05*(source_count-1))) for two or more sources. -/
theorem source_diversity_matches_amended (sources : List String) :
    assessSourceDiversity sources = sourceDiversityAmended sources := by
  rcases sources with _ | ⟨a, _ | ⟨b, l⟩⟩ <;>
    simp [assessSourceDiversity, sourceDiversityAmended]

end ConfidenceScoring

namespace Models

theorem foldl_setattrStep_fields (l : List FieldAssignment) :
    ∀ f : FundCategorization, (∀ a ∈ l, a.targetsSubCategory = true) →
      (l.foldl setattrStep f).ticker = f.ticker ∧
      (l.foldl setattrStep f).asset_class = f.asset_class ∧
      (l.foldl setattrStep f).asset_class_confidence = f.asset_class_confidence ∧
      (l.foldl setattrStep f).manual_override = f.manual_override ∧
      (l.foldl setattrStep f).override_reason = f.override_reason ∧
      (l.foldl setattrStep f).override_by = f.override_by ∧
      (l.foldl setattrStep f).override_timestamp = f.override_timestamp := by
  induction l with
  | nil => exact fun f h => ⟨rfl, rfl, rfl, rfl, rfl, rfl, rfl⟩
  | cons a rest ih =>
    intro f h
    have ha := h a (List.mem_cons_self a rest)
    have hrest := fun b hb => h b (List.mem_cons_of_mem a hb)
    cases a <;>
      first
        | exact Bool.noConfusion ha
        | simpa [setattrStep] using ih _ hrest

/-- C10 counterexample: the `hasattr`/`setattr` loop accepts arbitrary
field names, so a sub_categories argument keyed "asset_class" overrides
the just-assigned asset class, and one keyed "asset_class_confidence"
drops a 0.99 prior confidence to 0.95 — the override does lower it. -/
theorem apply_override_arbitrary_kwargs_counterexample :
    (FundCategorization.apply_override
        { ticker := "VTI", asset_class := "Equity", asset_class_confidence := 99/100 }
        "Equity" "manual review" "user" 5
        [FieldAssignment.asset_class "Cash"]).asset_class = "Cash" ∧
    "Cash" ≠ "Equity" ∧
    (FundCategorization.apply_override
        { ticker := "VTI", asset_class := "Equity", asset_class_confidence := 99/100 }
        "Equity" "manual review" "user" 5
        [FieldAssignment.asset_class_confidence (2/10)]).asset_class_confidence =
      95/100 ∧
    (95/100 : ℚ) < 99/100 := by
  refine ⟨rfl, by decide, ?_, by norm_num⟩
  simp only [FundCategorization.apply_override, setattrStep, List.foldl]
  norm_num

/-- C10 amended: when the sub_categories keyword arguments target only
the five sub-category fields (as the orchestrator review flow supplies),
apply_override records the override metadata, replaces the asset class,
and sets the confidence to max(0.95, prior) — never lowering it and
raising it to at least 0.95; for arbitrary keyword arguments only the
final 0.95 floor survives, since the setattr loop can overwrite any
field before the last line clamps the confidence up. -/
theorem apply_override_spec (f : FundCategorization)
    (new_asset_class reason ob : String) (now : ℤ)
    (subs : List FieldAssignment)
    (hsubs : ∀ a ∈ subs, a.targetsSubCategory = true) :
    (f.apply_override new_asset_class reason ob now subs).manual_override = true ∧
    (f.apply_override new_asset_class reason ob now subs).override_reason = some reason ∧
    (f.apply_override new_asset_class reason ob now subs).override_by = some ob ∧
    (f.apply_override new_asset_class reason ob now subs).override_timestamp = some now ∧
    (f.apply_override new_asset_class reason ob now subs).asset_class = new_asset_class ∧
    (f.apply_override new_asset_class reason ob now subs).asset_class_confidence =
      max (95/100) f.asset_class_confidence ∧
    95/100 ≤ (f.apply_override new_asset_class reason ob now subs).asset_class_confidence ∧
    f.asset_class_confidence ≤
      (f.apply_override new_asset_class reason ob now subs).asset_class_confidence ∧
    (∀ subs2 : List FieldAssignment,
      95/100 ≤ (f.apply_override new_asset_class reason ob now subs2).asset_class_confidence) := by
  obtain ⟨ht, hac, hconf, hmo, hor, hob, hots⟩ :=
    foldl_setattrStep_fields subs
      { f with
        manual_override := true
        override_reason := some reason
        override_by := some ob
        override_timestamp := some now
        asset_class := new_asset_class }
      hsubs
  simp only [FundCategorization.apply_override]
  refine ⟨hmo, hor, hob, hots, hac, by rw [hconf], ?_, ?_, ?_⟩
  · rw [hconf]; exact le_max_left _ _
  · rw [hconf]; exact le_max_right _ _
  · intro subs2
    exact le_max_left _ _

/-- Witness for C10 at a sub-category-only keyword argument list. -/
theorem apply_override_spec_witness :
    (FundCategorization.apply_override
        { ticker := "VTI", asset_class := "Equity", asset_class_confidence := 6/10 }
        "Equity" "manual review" "user" 5
        [FieldAssignment.equity_region (some "US")]).manual_override = true ∧
    (FundCategorization.apply_override
        { ticker := "VTI", asset_class := "Equity", asset_class_confidence := 6/10 }
        "Equity" "manual review" "user" 5
        [FieldAssignment.equity_region (some "US")]).asset_class = "Equity" ∧
    (FundCategorization.apply_override
        { ticker := "VTI", asset_class := "Equity", asset_class_confidence := 6/10 }
        "Equity" "manual review" "user" 5
        [FieldAssignment.equity_region (some "US")]).asset_class_confidence =
      max (95/100) (6/10) := by
  have h := apply_override_spec
    { ticker := "VTI", asset_class := "Equity", asset_class_confidence := 6/10 }
    "Equity" "manual review" "user" 5
    [FieldAssignment.equity_region (some "US")]
    (by decide)
  exact ⟨h.1, h.2.2.2.2.1, h.2.2.2.2.2.1⟩

end Models

namespace ConfidenceScoring

/-- C1 counterexample: the eleven default weights sum to 1.30, not the
1.20 the claim (and the spec) state. -/
theorem default_weight_total_counterexample :
    ((ConfidenceFactors.weightedPairs {}).map fun p => p.2).sum = 130/100 ∧
    (130/100 : ℚ) ≠ 120/100 := by
  constructor
  · norm_num [ConfidenceFactors.weightedPairs]
  · norm_num

end ConfidenceScoring

namespace Agents

/-- C9: handling an Error message from a stage agent yields exactly one
chat response of message_type "error" carrying the error data, and leaves
the orchestrator state (conversation stage and session) unchanged. -/
theorem handle_error_emits_chat_and_preserves_state
    (st : OrchestratorState) (m : InMsg) :
    (handle_error st m).1 = st ∧
    (handle_error st m).2.length = 1 ∧
    ((handle_error st m).2.map fun x => x.mtype) = [MessageType.chat_response] ∧
    ((handle_error st m).2.map fun x => x.data.message_type) = [some "error"] ∧
    ((handle_error st m).2.map fun x => x.data.errPayload) = [some m.data] ∧
    ((handle_error st m).2.map fun x => x.session_id) = [st.session_id] :=
  ⟨rfl, rfl, rfl, rfl, rfl, rfl⟩

theorem start_user_review_stageTrace (now : ℤ) (st : OrchestratorState)
    (cd : CategorizationData) :
    (start_user_review_process now st cd).stageTrace =
      [ConversationStage.categorization_review] := by
  cases hc : cd.interaction_needed <;>
    simp [start_user_review_process, hc]

theorem handle_classification_completion_stageTrace (now : ℤ)
    (st : OrchestratorState) (cd : CategorizationData) :
    (handle_classification_completion now st cd).stageTrace =
      if 0 < cd.summary.requires_user_input.getD 0 ∨
          cd.summary.average_confidence.getD 0 < 8/10 then
        [ConversationStage.classification_completed, .user_review_needed,
         .categorization_review]
      else
        [ConversationStage.classification_completed, .categorization_complete] := by
  unfold handle_classification_completion
  by_cases h : (0 < cd.summary.requires_user_input.getD 0 ∨
      cd.summary.average_confidence.getD 0 < 8/10)
  · simp [h, start_user_review_stageTrace]
  · simp [h]

/-- C2: the classification-completion handler enters the review state
(USER_REVIEW_NEEDED) if and only if requires_user_input > 0 or the
average confidence is below 0.8; otherwise it sets the stage to
CATEGORIZATION_COMPLETE and the final results message is the last
message it emits. -/
theorem classification_completion_review_iff (now : ℤ)
    (st : OrchestratorState) (cd : CategorizationData) :
    (ConversationStage.user_review_needed ∈
        (handle_classification_completion now st cd).stageTrace ↔
      (0 < cd.summary.requires_user_input.getD 0 ∨
        cd.summary.average_confidence.getD 0 < 8/10)) ∧
    (¬ (0 < cd.summary.requires_user_input.getD 0 ∨
        cd.summary.average_confidence.getD 0 < 8/10) →
      (handle_classification_completion now st cd).state.conversation_stage =
        ConversationStage.categorization_complete ∧
      (handle_classification_completion now st cd).emitted.getLast? =
        some (categorization_results_message st.session_id)) := by
  have htrace := handle_classification_completion_stageTrace now st cd
  constructor
  · rw [htrace]
    split
    · rename_i h
      simpa using h
    · rename_i h
      simp [h]
  · intro h
    unfold handle_classification_completion
    rw [if_neg h]
    cases hs : st.categorization_session <;> simp [hs]

/-- Witness for C2 in the high-confidence branch: no review requested and
average confidence 0.9. -/
theorem classification_completion_review_iff_witness :
    (handle_classification_completion 0
        { session_id := "s1", conversation_stage := .classification_started,
          categorization_session := none }
        { summary := { requires_user_input := some 0,
                       average_confidence := some (9/10) } }).state.conversation_stage =
      ConversationStage.categorization_complete ∧
    (handle_classification_completion 0
        { session_id := "s1", conversation_stage := .classification_started,
          categorization_session := none }
        { summary := { requires_user_input := some 0,
                       average_confidence := some (9/10) } }).emitted.getLast? =
      some (categorization_results_message "s1") :=
  (classification_completion_review_iff 0
      { session_id := "s1", conversation_stage := .classification_started,
        categorization_session := none }
      { summary := { requires_user_input := some 0,
                     average_confidence := some (9/10) } }).2
    (by norm_num [Option.getD])

/-- C3 counterexample: with the review pointer already past the end of
funds_needing_input, the orchestrator emits the completion chat message
and the final results message but leaves the conversation stage at
CATEGORIZATION_REVIEW — it does not transition it to
CATEGORIZATION_COMPLETE as the claim states. -/
theorem send_next_question_exhausted_counterexample :
    (send_next_categorization_question 0
        { session_id := "s1", conversation_stage := .categorization_review,
          categorization_session := some
            { session_id := "s1", funds_needing_input := ["VTI"],
              current_fund_index := 1 } }).1 =
      { session_id := "s1", conversation_stage := .categorization_review,
        categorization_session := some
          { session_id := "s1", funds_needing_input := ["VTI"],
            current_fund_index := 1 } } ∧
    (send_next_categorization_question 0
        { session_id := "s1", conversation_stage := .categorization_review,
          categorization_session := some
            { session_id := "s1", funds_needing_input := ["VTI"],
              current_fund_index := 1 } }).1.conversation_stage ≠
      ConversationStage.categorization_complete ∧
    (send_next_categorization_question 0
        { session_id := "s1", conversation_stage := .categorization_review,
          categorization_session := some
            { session_id := "s1", funds_needing_input := ["VTI"],
              current_fund_index := 1 } }).2 =
      [create_message "s1" .chat_response
        { message := "That is all the input I needed! Your portfolio categorization is now complete."
          message_type := some "success" },
       categorization_results_message "s1"] :=
  ⟨rfl, by decide, rfl⟩

/-- C3 amended: when the pointer has advanced past the end of the ordered
funds_needing_input list, the orchestrator emits the completion chat
message and the final categorization results message, and leaves the
whole orchestrator state — including the conversation stage — unchanged. -/
theorem send_next_question_exhausted_emits_results (now : ℤ)
    (st : OrchestratorState) (s : CategorizationSession)
    (hsess : st.categorization_session = some s)
    (hle : s.funds_needing_input.length ≤ s.current_fund_index) :
    send_next_categorization_question now st =
      (st,
       [create_message st.session_id .chat_response
          { message := "That is all the input I needed! Your portfolio categorization is now complete."
            message_type := some "success" },
        categorization_results_message st.session_id]) := by
  unfold send_next_categorization_question send_next_fuel
  simp only [hsess]
  unfold send_next_question_aux
  simp only [hsess, CategorizationSession.get_next_fund_needing_input,
    if_neg (Nat.not_lt.mpr hle)]

/-- Witness for C3 at a concrete exhausted session. -/
theorem send_next_question_exhausted_emits_results_witness :
    send_next_categorization_question 7
        { session_id := "s2", conversation_stage := .categorization_review,
          categorization_session := some
            { session_id := "s2", funds_needing_input := ["BND", "GLD"],
              current_fund_index := 2 } } =
      ({ session_id := "s2", conversation_stage := .categorization_review,
         categorization_session := some
           { session_id := "s2", funds_needing_input := ["BND", "GLD"],
             current_fund_index := 2 } },
       [create_message "s2" .chat_response
          { message := "That is all the input I needed! Your portfolio categorization is now complete."
            message_type := some "success" },
        categorization_results_message "s2"]) :=
  send_next_question_exhausted_emits_results 7 _ _ rfl (by decide)

end Agents

namespace BaseAgent

theorem post_init_session_id (now : ℤ) (u : String) (m : AgentMessage) :
    (post_init now u m).session_id = m.session_id := by
  obtain ⟨mt, s, r, d, sid, ts, mid⟩ := m
  cases ts <;> cases mid <;> rfl

theorem create_message_session_id (a : AgentHandle) (mt : Agents.MessageType)
    (r : Option Agents.AgentType) (d : List (String × String)) :
    (create_message a mt r d).session_id = a.session_id := rfl

theorem uuid4_string_length (n : ℕ) : (uuid4_string n).length = 36 := by
  simp [uuid4_string, hexPad, String.length]

theorem uuid4_string_ne_empty (n : ℕ) : uuid4_string n ≠ "" := by
  intro h
  have h2 := congrArg String.length h
  rw [uuid4_string_length] at h2
  norm_num [String.length] at h2

theorem pstep_preserves_inv {p q : Pipeline} (hstep : PStep p q)
    (hinv : PipelineInv p) : PipelineInv q := by
  obtain ⟨hact, hmsg⟩ := hinv
  cases hstep with
  | create_session n =>
    refine ⟨?_, hmsg⟩
    intro sid hsid
    rcases List.mem_cons.mp hsid with rfl | h
    · exact uuid4_string_ne_empty n
    · exact hact sid h
  | router_message sid now k mt d h =>
    refine ⟨hact, ?_⟩
    intro m hm
    rcases List.mem_cons.mp hm with rfl | hm2
    · rw [post_init_session_id]
      exact hact sid h
    · exact hmsg m hm2
  | agent_message a now k mt r d h =>
    refine ⟨hact, ?_⟩
    intro m hm
    rcases List.mem_cons.mp hm with rfl | hm2
    · rw [post_init_session_id, create_message_session_id]
      exact hact _ h
    · exact hmsg m hm2

/-- C8: in every pipeline state reachable from the initial one via the
message-construction events, every constructed AgentMessage has a
non-empty session_id (session ids are uuid4 draws, and every
construction site copies an id of a live session); and no event modifies
an already-constructed message — messages are only appended. -/
theorem message_envelope_session_id_invariant :
    (∀ p, Relation.ReflTransGen PStep initPipeline p → PipelineInv p) ∧
    (∀ p q, PStep p q → ∀ m ∈ p.messages, m ∈ q.messages) := by
  constructor
  · intro p h
    induction h with
    | refl =>
      exact ⟨fun sid hs => absurd hs (List.not_mem_nil sid),
             fun m hm => absurd hm (List.not_mem_nil m)⟩
    | tail hsteps hstep ih => exact pstep_preserves_inv hstep ih
  · intro p q hstep m hm
    cases hstep with
    | create_session => exact hm
    | router_message => exact List.mem_cons_of_mem _ hm
    | agent_message => exact List.mem_cons_of_mem _ hm

/-- Witness for C8: a concrete two-step trace (create a session, then the
router builds a message for it); the constructed message has a non-empty
session id. -/
theorem message_envelope_session_id_invariant_witness :
    (post_init 5 (uuid4_string 1)
        { mtype := .request_action, sender := none, recipient := none,
          data := [("action", "chat_message")],
          session_id := uuid4_string 0 }).session_id ≠ "" := by
  have h1 : PStep initPipeline
      { active_sessions := [uuid4_string 0], messages := [] } :=
    PStep.create_session initPipeline 0
  have h2 : PStep { active_sessions := [uuid4_string 0], messages := [] }
      { active_sessions := [uuid4_string 0],
        messages := [post_init 5 (uuid4_string 1)
          { mtype := .request_action, sender := none, recipient := none,
            data := [("action", "chat_message")],
            session_id := uuid4_string 0 }] } :=
    PStep.router_message _ (uuid4_string 0) 5 1 .request_action
      [("action", "chat_message")] (List.mem_singleton.mpr rfl)
  have hreach := Relation.ReflTransGen.tail (Relation.ReflTransGen.single h1) h2
  exact (message_envelope_session_id_invariant.1 _ hreach).2 _
    (List.mem_singleton.mpr rfl)

end BaseAgent

theorem assocGet_assocSet_self [DecidableEq κ] (m : List (κ × α)) (k : κ) (v : α) :
    assocGet (assocSet m k v) k = some v := by
  induction m with
  | nil => simp [assocSet, assocGet]
  | cons p rest ih =>
    obtain ⟨k0, v0⟩ := p
    by_cases h : k0 = k <;> simp [assocSet, assocGet, h, ih]

namespace Cache

theorem remove_from_memory_disk (st : CacheState) (k : String) :
    (remove_from_memory st k).disk = st.disk := by
  unfold remove_from_memory
  cases hx : assocGet st.memory_cache k <;> simp [hx]

theorem evict_from_memory_disk (st : CacheState) :
    (evict_from_memory st).disk = st.disk := by
  unfold evict_from_memory
  cases hx : lruKey st.memory_cache
  · rfl
  · simp [remove_from_memory_disk]

theorem evictLoop_disk (fuel size : ℕ) (st : CacheState) :
    (evictLoop fuel size st).disk = st.disk := by
  induction fuel generalizing st with
  | zero => rfl
  | succ n ih =>
    unfold evictLoop
    by_cases h : ((st.memory_size + size > st.max_memory_size) ∧ 0 < st.memory_cache.length)
    · rw [if_pos h, ih, evict_from_memory_disk]
    · rw [if_neg h]

theorem add_to_memory_disk (now : ℤ) (key : String) (value : ℕ)
    (ca ea : ℤ) (ac : ℕ) (la : Option ℤ) (tags : List String) (size : ℕ)
    (st : CacheState) :
    (add_to_memory now key value ca ea ac la tags size st).disk = st.disk := by
  unfold add_to_memory
  simp [evictLoop_disk]

theorem evictLoop_of_fits (fuel size : ℕ) (st : CacheState)
    (h : ¬ ((st.memory_size + size > st.max_memory_size) ∧ 0 < st.memory_cache.length)) :
    evictLoop fuel size st = st := by
  cases fuel with
  | zero => rfl
  | succ n =>
    unfold evictLoop
    rw [if_neg h]

/-- C4 counterexample: a disk row whose size (50 bytes) exceeds the
per-item cap (10% of a 100-byte memory budget) is still promoted to
memory on its third access — the claim's size-cap condition on promotion
does not exist in `get`. -/
theorem cache_promotion_ignores_size_cap_counterexample :
    ((Cache.get 10 "k"
        { max_memory_size := 100,
          disk := [("k",
            { key := "k", value := 7, created_at := 0, expires_at := 1000,
              access_count := 2, last_accessed := 0, tags := [],
              size_bytes := 50 })] }).1 = some 7) ∧
    ((assocGet (Cache.get 10 "k"
        { max_memory_size := 100,
          disk := [("k",
            { key := "k", value := 7, created_at := 0, expires_at := 1000,
              access_count := 2, last_accessed := 0, tags := [],
              size_bytes := 50 })] }).2.memory_cache "k").isSome = true) ∧
    50 > 100 / 10 := by
  refine ⟨?_, ?_, by norm_num⟩ <;>
    simp [Cache.get, Cache.getDisk, Cache.add_to_memory, Cache.evictLoop,
      assocGet, assocSet, CacheEntry.is_expired]

/-- C4 amended: on a memory miss that hits an unexpired persistent row,
`get` returns the value, increments the row's access counter, and
promotes a copy into memory exactly when the incremented count reaches 3
— with no per-item size-cap condition (the cap applies only in `set`);
and an entry whose expiry has passed is treated as absent in both tiers
and never returned. -/
theorem cache_get_promotion_and_expiry :
    (∀ (now : ℤ) (key : String) (st : CacheState) (row : CacheEntry),
      assocGet st.memory_cache key = none →
      assocGet st.disk key = some row →
      row.expires_at > now →
      (get now key st).1 = some row.value ∧
      assocGet (get now key st).2.disk key =
        some { row with access_count := row.access_count + 1, last_accessed := now } ∧
      ((assocGet (get now key st).2.memory_cache key).isSome ↔
        row.access_count + 1 ≥ 3)) ∧
    (∀ (now : ℤ) (key : String) (st : CacheState),
      (∀ e, assocGet st.memory_cache key = some e → e.is_expired now = true) →
      (∀ e, assocGet st.disk key = some e → ¬ e.expires_at > now) →
      (get now key st).1 = none) := by
  constructor
  · intro now key st row hmem hdisk hfresh
    unfold get
    simp only [hmem]
    unfold getDisk
    simp only [hdisk]
    rw [if_pos hfresh]
    refine ⟨rfl, ?_, ?_⟩
    · by_cases h3 : row.access_count + 1 ≥ 3
      · rw [if_pos h3]
        simp [add_to_memory_disk, assocGet_assocSet_self]
      · rw [if_neg h3]
        simp [assocGet_assocSet_self]
    · by_cases h3 : row.access_count + 1 ≥ 3
      · rw [if_pos h3]
        simp only [Cache.add_to_memory]
        simp [assocGet_assocSet_self, h3]
      · rw [if_neg h3]
        simp [hmem, h3]
  · intro now key st hmemexp hdiskexp
    have hdiskbranch : ∀ st2 : CacheState, st2.disk = st.disk →
        (getDisk now key st2).1 = none := by
      intro st2 heq
      unfold getDisk
      rw [heq]
      cases hd : assocGet st.disk key with
      | none => rfl
      | some row =>
        dsimp only
        rw [if_neg (hdiskexp row hd)]
    unfold get
    cases hm : assocGet st.memory_cache key with
    | none =>
      dsimp only
      exact hdiskbranch st rfl
    | some e =>
      dsimp only
      rw [if_neg (by simp [hmemexp e hm])]
      exact hdiskbranch _ (remove_from_memory_disk st key)

/-- Witness for C4: a small unexpired disk row on its third access is
promoted; the promoted copy is visible in memory. -/
theorem cache_get_promotion_and_expiry_witness :
    ((Cache.get 10 "k"
        { max_memory_size := 100,
          disk := [("k",
            { key := "k", value := 9, created_at := 0, expires_at := 1000,
              access_count := 2, last_accessed := 0, tags := [],
              size_bytes := 5 })] }).1 = some 9) ∧
    ((assocGet (Cache.get 10 "k"
        { max_memory_size := 100,
          disk := [("k",
            { key := "k", value := 9, created_at := 0, expires_at := 1000,
              access_count := 2, last_accessed := 0, tags := [],
              size_bytes := 5 })] }).2.memory_cache "k").isSome ↔ 2 + 1 ≥ 3) := by
  have h := cache_get_promotion_and_expiry.1 10 "k"
    { max_memory_size := 100,
      disk := [("k",
        { key := "k", value := 9, created_at := 0, expires_at := 1000,
          access_count := 2, last_accessed := 0, tags := [],
          size_bytes := 5 })] }
    { key := "k", value := 9, created_at := 0, expires_at := 1000,
      access_count := 2, last_accessed := 0, tags := [], size_bytes := 5 }
    rfl (by simp [assocGet]) (by norm_num)
  exact ⟨h.1, h.2.2⟩

end Cache

namespace Cache

theorem evictLoop_succ_of_over (n size : ℕ) (st : CacheState)
    (h : (st.memory_size + size > st.max_memory_size) ∧ 0 < st.memory_cache.length) :
    evictLoop (n + 1) size st = evictLoop n size (evict_from_memory st) := by
  show (if (st.memory_size + (size : ℤ) > (st.max_memory_size : ℤ)) ∧
      0 < st.memory_cache.length then
    evictLoop n size (evict_from_memory st) else st) =
    evictLoop n size (evict_from_memory st)
  rw [if_pos h]

/-- Single-eviction instance of the eviction loop: when adding an entry
would exceed the memory budget and removing the least-recently-accessed
entry makes it fit, `_add_to_memory` evicts exactly that one entry
(bumping the eviction counter once) and stores the new entry. -/
theorem add_to_memory_evicts_single_lru
    (now : ℤ) (key : String) (v : ℕ) (ca ea : ℤ) (ac : ℕ) (la : Option ℤ)
    (tags : List String) (size : ℕ) (st : CacheState) (k0 : String) (e0 : CacheEntry)
    (hover : st.memory_size + (size : ℤ) > (st.max_memory_size : ℤ))
    (hlru : lruKey st.memory_cache = some k0)
    (he0 : assocGet st.memory_cache k0 = some e0)
    (hfit : st.memory_size - (e0.size_bytes : ℤ) + (size : ℤ) ≤ (st.max_memory_size : ℤ)) :
    add_to_memory now key v ca ea ac la tags size st =
      { st with
        memory_cache := assocSet (assocRemove st.memory_cache k0) key
          { key := key, value := v, created_at := ca, expires_at := ea,
            access_count := ac, last_accessed := la.getD now,
            tags := tags, size_bytes := size }
        memory_size := st.memory_size - (e0.size_bytes : ℤ) + (size : ℤ)
        evictions := st.evictions + 1 } := by
  have hne : st.memory_cache ≠ [] := by
    intro hnil
    rw [hnil] at hlru
    simp [lruKey] at hlru
  have hpos : 0 < st.memory_cache.length := List.length_pos.mpr hne
  have hevict : evict_from_memory st =
      { st with
        memory_cache := assocRemove st.memory_cache k0
        memory_size := st.memory_size - (e0.size_bytes : ℤ)
        evictions := st.evictions + 1 } := by
    unfold evict_from_memory remove_from_memory
    simp only [hlru, he0]
  obtain ⟨n, hn⟩ : ∃ n, st.memory_cache.length = n + 1 :=
    ⟨st.memory_cache.length - 1, (Nat.succ_pred_eq_of_pos hpos).symm⟩
  unfold add_to_memory
  rw [hn, evictLoop_succ_of_over n size st ⟨hover, hpos⟩, hevict,
    evictLoop_of_fits]
  intro hcond
  exact absurd hcond.1 (not_lt.mpr hfit)

theorem assocRemove_length [DecidableEq K] (m : List (K × A)) (k : K) (e : A)
    (h : assocGet m k = some e) : (assocRemove m k).length + 1 = m.length := by
  induction m with
  | nil => simp [assocGet] at h
  | cons p rest ih =>
    obtain ⟨k0, v0⟩ := p
    by_cases hk : k0 = k
    · simp [assocRemove, hk]
    · simp only [assocGet, if_neg hk] at h
      simp [assocRemove, hk, ih h]

theorem foldl_minBy_mem (p : String × CacheEntry) (rest : List (String × CacheEntry)) :
    rest.foldl
      (fun best q => if q.2.last_accessed < best.2.last_accessed then q else best) p ∈
      p :: rest := by
  induction rest generalizing p with
  | nil => simp
  | cons q rest2 ih =>
    simp only [List.foldl_cons]
    rcases List.mem_cons.mp
        (ih (if q.2.last_accessed < p.2.last_accessed then q else p)) with h | h
    · rw [h]
      split
      · exact List.mem_cons_of_mem _ (List.mem_cons_self _ _)
      · exact List.mem_cons_self _ _
    · exact List.mem_cons_of_mem _ (List.mem_cons_of_mem _ h)

theorem assocGet_of_mem [DecidableEq K] (m : List (K × A)) (k : K) (v : A)
    (h : (k, v) ∈ m) : ∃ e, assocGet m k = some e := by
  induction m with
  | nil => simp at h
  | cons p rest ih =>
    obtain ⟨k0, v0⟩ := p
    by_cases hk : k0 = k
    · exact ⟨v0, by simp [assocGet, hk]⟩
    · rcases List.mem_cons.mp h with heq | hmem
      · exact absurd (congrArg Prod.fst heq).symm hk
      · obtain ⟨e, he⟩ := ih hmem
        exact ⟨e, by simp [assocGet, hk, he]⟩

theorem lruKey_exists_entry (m : List (String × CacheEntry)) (k : String)
    (h : lruKey m = some k) : ∃ e, assocGet m k = some e := by
  cases m with
  | nil => simp [lruKey] at h
  | cons p rest =>
    simp only [lruKey, Option.some.injEq] at h
    have hmem := foldl_minBy_mem p rest
    refine assocGet_of_mem (p :: rest) k
      (rest.foldl
        (fun best q => if q.2.last_accessed < best.2.last_accessed then q else best) p).2 ?_
    rw [← h]
    simpa using hmem

theorem evict_from_memory_length (st : CacheState) (h : st.memory_cache ≠ []) :
    (evict_from_memory st).memory_cache.length + 1 = st.memory_cache.length := by
  unfold evict_from_memory
  cases hl : lruKey st.memory_cache with
  | none =>
    cases hm : st.memory_cache with
    | nil => exact absurd hm h
    | cons p rest => rw [hm] at hl; simp [lruKey] at hl
  | some k =>
    obtain ⟨e, he⟩ := lruKey_exists_entry _ _ hl
    dsimp only
    unfold remove_from_memory
    simp only [he]
    exact assocRemove_length st.memory_cache k e he

theorem evictLoop_realizes (size : ℕ) :
    ∀ (n : ℕ) (st : CacheState), st.memory_cache.length = n →
      EvictsUntilFits size st (evictLoop n size st) := by
  intro n
  induction n with
  | zero =>
    intro st hlen
    exact EvictsUntilFits.fits st (Or.inr (List.length_eq_zero.mp hlen))
  | succ n ih =>
    intro st hlen
    by_cases hc : (st.memory_size + (size : ℤ) > (st.max_memory_size : ℤ)) ∧
        0 < st.memory_cache.length
    · rw [evictLoop_succ_of_over n size st hc]
      refine EvictsUntilFits.evict st _ hc.1 (List.length_pos.mp hc.2) ?_
      apply ih
      have := evict_from_memory_length st (List.length_pos.mp hc.2)
      omega
    · rw [evictLoop_of_fits (n + 1) size st hc]
      refine EvictsUntilFits.fits st ?_
      rcases not_and_or.mp hc with h | h
      · exact Or.inl (not_lt.mp h)
      · exact Or.inr (List.length_eq_zero.mp (Nat.eq_zero_of_not_pos h))

/-- C5: `_add_to_memory` realizes the spec eviction discipline: it
repeatedly evicts the entry with the oldest last_accessed while the new
entry would exceed the memory budget, stopping as soon as there is room
(or memory is empty), and stores the new entry into the resulting state;
in particular, when evicting the single least-recently-accessed entry
already makes room, exactly that entry and no other is evicted. -/
theorem add_to_memory_evicts_lru_until_fits :
    (∀ (now : ℤ) (key : String) (v : ℕ) (ca ea : ℤ) (ac : ℕ) (la : Option ℤ)
        (tags : List String) (size : ℕ) (st : CacheState),
      EvictsUntilFits size st (evictLoop st.memory_cache.length size st) ∧
      add_to_memory now key v ca ea ac la tags size st =
        { evictLoop st.memory_cache.length size st with
          memory_cache := assocSet
            (evictLoop st.memory_cache.length size st).memory_cache key
            { key := key, value := v, created_at := ca, expires_at := ea,
              access_count := ac, last_accessed := la.getD now,
              tags := tags, size_bytes := size }
          memory_size := (evictLoop st.memory_cache.length size st).memory_size + size }) ∧
    (∀ (now : ℤ) (key : String) (v : ℕ) (ca ea : ℤ) (ac : ℕ) (la : Option ℤ)
        (tags : List String) (size : ℕ) (st : CacheState) (k0 : String) (e0 : CacheEntry),
      st.memory_size + (size : ℤ) > (st.max_memory_size : ℤ) →
      lruKey st.memory_cache = some k0 →
      assocGet st.memory_cache k0 = some e0 →
      st.memory_size - (e0.size_bytes : ℤ) + (size : ℤ) ≤ (st.max_memory_size : ℤ) →
      add_to_memory now key v ca ea ac la tags size st =
        { st with
          memory_cache := assocSet (assocRemove st.memory_cache k0) key
            { key := key, value := v, created_at := ca, expires_at := ea,
              access_count := ac, last_accessed := la.getD now,
              tags := tags, size_bytes := size }
          memory_size := st.memory_size - (e0.size_bytes : ℤ) + (size : ℤ)
          evictions := st.evictions + 1 }) := by
  constructor
  · intro now key v ca ea ac la tags size st
    exact ⟨evictLoop_realizes size st.memory_cache.length st rfl, rfl⟩
  · exact add_to_memory_evicts_single_lru

/-- Witness for C5: a budget of 30 bytes holding three 10-byte entries
("a" last accessed at 3, "b" at 1, "c" at 2). Inserting a fourth 10-byte
entry evicts exactly "b" and nothing else (via the theorem); inserting a
15-byte entry instead needs two evictions, "b" then "c", leaving "a" and
the new entry with two evictions counted. -/
theorem add_to_memory_evicts_lru_until_fits_witness :
    (add_to_memory 5 "d" 9 0 100 1 none [] 10
      { max_memory_size := 30,
        memory_cache :=
          [("a", { key := "a", value := 1, created_at := 0, expires_at := 100,
                   access_count := 1, last_accessed := 3, tags := [], size_bytes := 10 }),
           ("b", { key := "b", value := 2, created_at := 0, expires_at := 100,
                   access_count := 1, last_accessed := 1, tags := [], size_bytes := 10 }),
           ("c", { key := "c", value := 3, created_at := 0, expires_at := 100,
                   access_count := 1, last_accessed := 2, tags := [], size_bytes := 10 })]
        memory_size := 30 } =
      { max_memory_size := 30,
        memory_cache :=
          assocSet (assocRemove
            [("a", { key := "a", value := 1, created_at := 0, expires_at := 100,
                     access_count := 1, last_accessed := 3, tags := [], size_bytes := 10 }),
             ("b", { key := "b", value := 2, created_at := 0, expires_at := 100,
                     access_count := 1, last_accessed := 1, tags := [], size_bytes := 10 }),
             ("c", { key := "c", value := 3, created_at := 0, expires_at := 100,
                     access_count := 1, last_accessed := 2, tags := [], size_bytes := 10 })]
            "b") "d"
            { key := "d", value := 9, created_at := 0, expires_at := 100,
              access_count := 1, last_accessed := 5, tags := [], size_bytes := 10 }
        memory_size := 30 - (10 : ℤ) + (10 : ℤ)
        evictions := 0 + 1 }) ∧
    ((add_to_memory 5 "e" 9 0 100 1 none [] 15
      { max_memory_size := 30,
        memory_cache :=
          [("a", { key := "a", value := 1, created_at := 0, expires_at := 100,
                   access_count := 1, last_accessed := 3, tags := [], size_bytes := 10 }),
           ("b", { key := "b", value := 2, created_at := 0, expires_at := 100,
                   access_count := 1, last_accessed := 1, tags := [], size_bytes := 10 }),
           ("c", { key := "c", value := 3, created_at := 0, expires_at := 100,
                   access_count := 1, last_accessed := 2, tags := [], size_bytes := 10 })]
        memory_size := 30 }).memory_cache.map Prod.fst = ["a", "e"] ∧
     (add_to_memory 5 "e" 9 0 100 1 none [] 15
      { max_memory_size := 30,
        memory_cache :=
          [("a", { key := "a", value := 1, created_at := 0, expires_at := 100,
                   access_count := 1, last_accessed := 3, tags := [], size_bytes := 10 }),
           ("b", { key := "b", value := 2, created_at := 0, expires_at := 100,
                   access_count := 1, last_accessed := 1, tags := [], size_bytes := 10 }),
           ("c", { key := "c", value := 3, created_at := 0, expires_at := 100,
                   access_count := 1, last_accessed := 2, tags := [], size_bytes := 10 })]
        memory_size := 30 }).evictions = 2) := by
  constructor
  · exact add_to_memory_evicts_lru_until_fits.2 5 "d" 9 0 100 1 none [] 10
      { max_memory_size := 30,
        memory_cache :=
          [("a", { key := "a", value := 1, created_at := 0, expires_at := 100,
                   access_count := 1, last_accessed := 3, tags := [], size_bytes := 10 }),
           ("b", { key := "b", value := 2, created_at := 0, expires_at := 100,
                   access_count := 1, last_accessed := 1, tags := [], size_bytes := 10 }),
           ("c", { key := "c", value := 3, created_at := 0, expires_at := 100,
                   access_count := 1, last_accessed := 2, tags := [], size_bytes := 10 })]
        memory_size := 30 }
      "b"
      { key := "b", value := 2, created_at := 0, expires_at := 100,
        access_count := 1, last_accessed := 1, tags := [], size_bytes := 10 }
      (by norm_num) (by simp [lruKey]) (by simp [assocGet]) (by norm_num)
  · constructor <;>
      simp [add_to_memory, evictLoop, evict_from_memory, lruKey,
        remove_from_memory, assocGet, assocSet, assocRemove]

/-- C6: the cleanup sweep is gated on the count of in-memory entries (a
multiple of 100), not on a write counter: from an empty cache, two
consecutive oversized writes (never mirrored to memory, count stays 0)
each trigger the sweep, while the third, small write (count becomes 1)
does not — so sweeps do not run once every N writes for any fixed N. -/
theorem cleanup_trigger_depends_on_memory_count :
    (runSets 0 [("a", 1, 50), ("b", 2, 50), ("c", 3, 5)] 1000
      { max_memory_size := 100 }).2 = [true, true, false] := by
  simp [runSets, Cache.set, Cache.add_to_memory, Cache.evictLoop,
    Cache.cleanup_expired, Cache.remove_from_memory, CacheEntry.is_expired,
    assocGet, assocSet]

end Cache
